import Mathlib

/-!
Verification development for the PremierPredictionTool simulation core
(`ModelScriptsForCLI/simulation_approach.py`).

The embedding is a shallow one over exact rationals (`ℚ`): every numeric
literal of the source (`0.2`, `0.01`, `1/3`, …) is modelled by the exact
rational it denotes.  Randomness (`np.random.choice`) is modelled by an
inverse-CDF sampler consuming a uniform sample `u ∈ [0, 1)`, or, where a
claim quantifies over all random histories, by an arbitrary outcome
resolver function.  Fallible paths (early `return` after an error print,
uncaught pandas `KeyError`) are modelled with `Except`.
-/

namespace PremierPrediction

/-- The three match outcomes `"H"`, `"D"`, `"A"` of the source. -/
inductive Outcome where
  | H
  | D
  | A
deriving DecidableEq

/-- Team names are strings in the source. -/
abbrev Team := String

/-- One entry of `team_stats_dict`: the three derived per-team statistics
`Attack_Strength`, `Defense_Strength`, `Win_Rate`. -/
structure TeamProfile where
  attackStrength : ℚ
  defenseStrength : ℚ
  winRate : ℚ
deriving DecidableEq

/-- Line 21 of the source:
`data["Season"].apply(lambda x: 1 if x < 2015 else (1 + (x - 2015) / 5))`. -/
def seasonWeight (year : ℚ) : ℚ :=
  if year < 2015 then 1 else 1 + (year - 2015) / 5

/-- Inverse-CDF sampler for
`np.random.choice(["H","D","A"], p=[1/3, 1/3, 1/3])`,
consuming a uniform sample `u ∈ [0, 1)`. -/
def choice3 (u : ℚ) : Outcome :=
  if u < 1/3 then .H else if u < 2/3 then .D else .A

/-- The signed strength differential `home_advantage` of `simulate_match`
(line 56): `(home_attack + away_defense) - (away_attack + home_defense)`. -/
def edge (home away : TeamProfile) : ℚ :=
  (home.attackStrength + away.defenseStrength) -
    (away.attackStrength + home.defenseStrength)

/-- `simulate_match` (lines 46-62).  `profiles` is `team_stats_dict` as a
partial map; `u` is the uniform sample consumed by the unknown-team
fallback draw. -/
def simulate_match (profiles : Team → Option TeamProfile)
    (home_team away_team : Team) (u : ℚ) : Outcome :=
  match profiles home_team, profiles away_team with
  | some hp, some ap =>
      let home_advantage := edge hp ap
      if home_advantage > 1/5 then .H
      else if home_advantage < -(1/5) then .A
      else .D
  | _, _ => choice3 u

/-- Error raised (as an error print plus early return) by
`simulate_head_to_head` when a team is missing from `team_stats_dict`. -/
inductive HtHError where
  | unknownTeamError
deriving DecidableEq

/-- Inverse-CDF sampler for
`np.random.choice(["H","D","A"], p=[team1_prob, draw_prob, team2_prob])`. -/
def sampleCategorical (pH pD : ℚ) (u : ℚ) : Outcome :=
  if u < pH then .H else if u < pH + pD then .D else .A

/-- The probability computation of `simulate_head_to_head` (lines 167-188):
strength differentials, absolute-value normalisation with the `0.01`
division-by-zero guard, the `0.2` draw floor, and the final
renormalisation.  Returned in the source's sampling order
`(team1_prob, draw_prob, team2_prob)`. -/
def headToHeadProbs (p1 p2 : TeamProfile) : ℚ × ℚ × ℚ :=
  let team1_strength := p1.attackStrength - p2.defenseStrength
  let team2_strength := p2.attackStrength - p1.defenseStrength
  let total_strength0 := |team1_strength| + |team2_strength|
  let total_strength := if total_strength0 = 0 then 1/100 else total_strength0
  let team1_prob := |team1_strength| / total_strength
  let team2_prob := |team2_strength| / total_strength
  let draw_prob := max (1 - (team1_prob + team2_prob)) (1/5)
  let total_prob := team1_prob + team2_prob + draw_prob
  (team1_prob / total_prob, draw_prob / total_prob, team2_prob / total_prob)

/-- Result of `simulate_head_to_head`: the three renormalised
probabilities and the sampled outcome. -/
structure HeadToHeadResult where
  team1_prob : ℚ
  draw_prob : ℚ
  team2_prob : ℚ
  result : Outcome
deriving DecidableEq

/-- `simulate_head_to_head` (lines 161-199). -/
def simulate_head_to_head (profiles : Team → Option TeamProfile)
    (team1 team2 : Team) (u : ℚ) : Except HtHError HeadToHeadResult :=
  match profiles team1, profiles team2 with
  | some p1, some p2 =>
      let ps := headToHeadProbs p1 p2
      .ok ⟨ps.1, ps.2.1, ps.2.2, sampleCategorical ps.1 ps.2.1 u⟩
  | _, _ => .error .unknownTeamError

/-- Point award of one simulated match (lines 134-140): 3 to the winner,
1 to each team on a draw, 0 to the loser; every other team's tally is
untouched. -/
def applyResult (standings : Team → ℕ) (home_team away_team : Team) :
    Outcome → (Team → ℕ)
  | .H => fun t => if t = home_team then standings t + 3 else standings t
  | .D => fun t => if t = home_team ∨ t = away_team then standings t + 1 else standings t
  | .A => fun t => if t = away_team then standings t + 3 else standings t

/-- The match schedule of one trial (lines 130-132): the doubly nested
loop over `historical_teams` playing every ordered pair of distinct
teams. -/
def allPairs (teams : List Team) : List (Team × Team) :=
  teams.flatMap fun home_team =>
    (teams.filter fun away_team => decide (away_team ≠ home_team)).map
      fun away_team => (home_team, away_team)

/-- Folding the point awards of a list of matches over a standings tally.
`res` resolves each match (it abstracts the `simulate_match` call together
with its random history). -/
def playAll (res : Team → Team → Outcome) (pairs : List (Team × Team))
    (standings : Team → ℕ) : Team → ℕ :=
  pairs.foldl (fun st p => applyResult st p.1 p.2 (res p.1 p.2)) standings

/-- One trial of `simulate_season` (lines 126-140): a fresh all-zero
standings tally, then every ordered pair of distinct teams played once. -/
def runSeasonTrial (res : Team → Team → Outcome) (teams : List Team) : Team → ℕ :=
  playAll res (allPairs teams) fun _ => 0

/-- Total points held by the listed teams under a standings tally. -/
def totalPoints (teams : List Team) (standings : Team → ℕ) : ℕ :=
  (teams.map standings).sum

/-- Number of drawn matches among a list of matches. -/
def countDraws (res : Team → Team → Outcome) (pairs : List (Team × Team)) : ℕ :=
  (pairs.filter fun p => decide (res p.1 p.2 = .D)).length

/-- Number of decisive (non-drawn) matches among a list of matches. -/
def countDecisive (res : Team → Team → Outcome) (pairs : List (Team × Team)) : ℕ :=
  (pairs.filter fun p => decide (res p.1 p.2 ≠ .D)).length

/-- The ranking order of line 143: teams sorted by accumulated points,
descending. -/
def pointsGE (standings : Team → ℕ) (t u : Team) : Prop :=
  standings u ≤ standings t

instance (standings : Team → ℕ) : DecidableRel (pointsGE standings) :=
  fun t u => inferInstanceAs (Decidable (standings u ≤ standings t))

/-- `sorted(standings.items(), key=..., reverse=True)` (line 143), kept as
the list of teams. -/
def sortByPointsDesc (standings : Team → ℕ) (teams : List Team) : List Team :=
  List.insertionSort (pointsGE standings) teams

/-- The 1-based finish position `rank + 1` of a team in one trial
(lines 144-145). -/
def position (standings : Team → ℕ) (teams : List Team) (t : Team) : ℕ :=
  (sortByPointsDesc standings teams).indexOf t + 1

/-- A team's average finish position across all trials (line 148,
`np.mean(ranks)`).  `res k` resolves the matches of trial `k`. -/
def avgPosition (res : ℕ → Team → Team → Outcome) (teams : List Team)
    (trials : ℕ) (t : Team) : ℚ :=
  (((List.range trials).map fun k =>
      (position (runSeasonTrial (res k) teams) teams t : ℚ)).sum) / trials

/-- Ascending order on average position, used by
`sort_values(by="Avg Position")` (line 150). -/
def byAvg (p q : Team × ℚ) : Prop :=
  p.2 ≤ q.2

instance : DecidableRel byAvg :=
  fun p q => inferInstanceAs (Decidable (p.2 ≤ q.2))

instance : IsTotal (Team × ℚ) byAvg :=
  ⟨fun p q => le_total p.2 q.2⟩

instance : IsTrans (Team × ℚ) byAvg :=
  ⟨fun _ _ _ h1 h2 => le_trans h1 h2⟩

/-- The average-position mapping returned by the season simulator
(lines 142-150): one entry per team, sorted ascending by average
position. -/
def simulateSeasonAvg (res : ℕ → Team → Team → Outcome) (teams : List Team)
    (trials : ℕ) : List (Team × ℚ) :=
  List.insertionSort byAvg (teams.map fun t => (t, avgPosition res teams trials t))

/-- The `.head(10)` display truncation of line 150 (a presentation step:
only the top ten rows are printed). -/
def top10 (l : List (Team × ℚ)) : List (Team × ℚ) :=
  l.take 10

/-- One raw row of `Premier_League_Standings.csv`: the team name plus the
numeric columns actually present in the file (a column may be absent). -/
structure RawRecord where
  team : String
  cols : List (String × ℚ)

/-- The uncaught pandas exception raised by a lookup of an absent column
(`x["Pld"]` with no `Pld` column raises `KeyError`). -/
inductive PyError where
  | keyError (col : String)
deriving DecidableEq

/-- Column lookup on one row: the value if the column is present,
otherwise an uncaught `KeyError` that aborts the whole computation. -/
def RawRecord.get (r : RawRecord) (c : String) : Except PyError ℚ :=
  match r.cols.lookup c with
  | some v => .ok v
  | none => .error (.keyError c)

/-- `np.average(x[c], weights=x["SeasonWeight"])` over the rows of one
group: each row paired with its already-computed season weight. -/
def weightedAvg (rows : List (RawRecord × ℚ)) (c : String) : Except PyError ℚ := do
  let vals ← rows.mapM fun rw => rw.1.get c
  pure ((List.zipWith (fun v w => v * w) vals (rows.map fun rw => rw.2)).sum /
    (rows.map fun rw => rw.2).sum)

/-- The aggregated statistics of one team (the `pd.Series` built in
lines 23-32), restricted to the fields consumed afterwards. -/
structure TeamPerformance where
  name : String
  gf : ℚ
  ga : ℚ
  w : ℚ
  pld : ℚ

/-- The module-level aggregation pipeline of lines 21-43: season weights
from the `Season` column, group-by team, weighted average of each of the
eight statistic columns (in the source's order, so the first absent
column is the one reported), then the derived `Attack_Strength`,
`Defense_Strength` and `Win_Rate` of lines 35-38.  The guard of line 35
tests the columns of the aggregated frame, which the successful
aggregation always constructs, so the success path always computes the
strengths. -/
def buildProfiles (records : List RawRecord) :
    Except PyError (List (String × TeamProfile)) := do
  let weighted ← records.mapM fun r => do
      let s ← r.get "Season"
      pure (r, seasonWeight s)
  let teams := (records.map fun r => r.team).dedup
  let perf ← teams.mapM fun name => do
      let rows := weighted.filter fun rw => decide (rw.1.team = name)
      let _pts ← weightedAvg rows "Pts"
      let gf ← weightedAvg rows "GF"
      let ga ← weightedAvg rows "GA"
      let _gd ← weightedAvg rows "GD"
      let w ← weightedAvg rows "W"
      let _d ← weightedAvg rows "D"
      let _l ← weightedAvg rows "L"
      let pld ← weightedAvg rows "Pld"
      pure { name := name, gf := gf, ga := ga, w := w, pld := pld :
        TeamPerformance }
  pure (perf.map fun p =>
    (p.name, { attackStrength := p.gf / p.pld, defenseStrength := p.ga / p.pld,
               winRate := p.w / p.pld : TeamProfile }))

/-- A concrete record set missing the `Pld` column (all other required
columns present). -/
def recordsMissingPld : List RawRecord :=
  [{ team := "Arsenal",
     cols := [("Season", 2020), ("Pts", 80), ("GF", 60), ("GA", 30),
              ("GD", 30), ("W", 25), ("D", 5), ("L", 8)] }]

/-! ## Helper lemmas -/

lemma simulate_match_known {profiles : Team → Option TeamProfile}
    {home away : Team} {hp ap : TeamProfile}
    (hh : profiles home = some hp) (ha : profiles away = some ap) (u : ℚ) :
    simulate_match profiles home away u =
      if edge hp ap > 1/5 then .H
      else if edge hp ap < -(1/5) then .A
      else .D := by
  simp [simulate_match, hh, ha]

lemma outcome_threshold_cases (e : ℚ) :
    ((if e > 1/5 then Outcome.H else if e < -(1/5) then Outcome.A else Outcome.D)
        = .H ↔ 1/5 < e) ∧
    ((if e > 1/5 then Outcome.H else if e < -(1/5) then Outcome.A else Outcome.D)
        = .A ↔ e < -(1/5)) ∧
    ((if e > 1/5 then Outcome.H else if e < -(1/5) then Outcome.A else Outcome.D)
        = .D ↔ -(1/5) ≤ e ∧ e ≤ 1/5) := by
  split_ifs with h1 h2 <;>
    refine ⟨?_, ?_, ?_⟩ <;>
    simp only [reduceCtorEq, false_iff, true_iff, iff_true, iff_false, not_lt,
      not_and, not_le] <;>
    first
      | linarith
      | (intro hx; linarith)
      | (constructor <;> linarith)

/-! ## Claims -/

/-- C1: on the both-known path `simulate_match` computes
`edge = (home.AttackStrength + away.DefenseStrength) -
(away.AttackStrength + home.DefenseStrength)` and returns `H` exactly when
`edge > 0.2`, `A` exactly when `edge < -0.2` and `D` otherwise
(`-0.2 ≤ edge ≤ 0.2`); the result is a deterministic function of the two
profiles' attack and defense strengths only (independent of the random
sample and of every other profile field). -/
theorem simulate_match_threshold_spec
    (profiles : Team → Option TeamProfile) (home away : Team)
    (hp ap : TeamProfile)
    (hh : profiles home = some hp) (ha : profiles away = some ap) (u : ℚ) :
    (simulate_match profiles home away u = .H ↔ 1/5 < edge hp ap) ∧
    (simulate_match profiles home away u = .A ↔ edge hp ap < -(1/5)) ∧
    (simulate_match profiles home away u = .D ↔
      -(1/5) ≤ edge hp ap ∧ edge hp ap ≤ 1/5) ∧
    (∀ (profiles2 : Team → Option TeamProfile) (home2 away2 : Team)
        (hp2 ap2 : TeamProfile) (v : ℚ),
        profiles2 home2 = some hp2 → profiles2 away2 = some ap2 →
        hp2.attackStrength = hp.attackStrength →
        hp2.defenseStrength = hp.defenseStrength →
        ap2.attackStrength = ap.attackStrength →
        ap2.defenseStrength = ap.defenseStrength →
        simulate_match profiles2 home2 away2 v = simulate_match profiles home away u) := by
  rw [simulate_match_known hh ha]
  obtain ⟨c1, c2, c3⟩ := outcome_threshold_cases (edge hp ap)
  refine ⟨c1, c2, c3, ?_⟩
  intro profiles2 home2 away2 hp2 ap2 v hh2 ha2 e1 e2 e3 e4
  rw [simulate_match_known hh2 ha2]
  have : edge hp2 ap2 = edge hp ap := by
    unfold edge
    rw [e1, e2, e3, e4]
  rw [this]

/-- C1 witness: concrete instantiation with a home edge of `0.5 > 0.2`. -/
theorem simulate_match_threshold_spec_witness :
    ((fun t => if t = "A" then some ⟨1, 1/2, 0⟩ else
        if t = "B" then some ⟨1/2, 1/2, 0⟩ else none) "A"
      = some (⟨1, 1/2, 0⟩ : TeamProfile)) ∧
    (simulate_match
        (fun t => if t = "A" then some ⟨1, 1/2, 0⟩ else
          if t = "B" then some ⟨1/2, 1/2, 0⟩ else none) "A" "B" 0 = .H ↔
      1/5 < edge ⟨1, 1/2, 0⟩ ⟨1/2, 1/2, 0⟩) := by
  refine ⟨rfl, ?_⟩
  exact (simulate_match_threshold_spec
    (fun t => if t = "A" then some ⟨1, 1/2, 0⟩ else
      if t = "B" then some ⟨1/2, 1/2, 0⟩ else none)
    "A" "B" ⟨1, 1/2, 0⟩ ⟨1/2, 1/2, 0⟩ rfl rfl 0).1

/-- C7: `SeasonWeight(year)` is `1` for every year before the cutoff 2015,
`1 + (year - 2015) / 5` at or after it, and is monotonically
non-decreasing in the year. -/
theorem seasonWeight_spec :
    (∀ y : ℚ, y < 2015 → seasonWeight y = 1) ∧
    (∀ y : ℚ, 2015 ≤ y → seasonWeight y = 1 + (y - 2015) / 5) ∧
    (∀ y1 y2 : ℚ, y1 ≤ y2 → seasonWeight y1 ≤ seasonWeight y2) := by
  refine ⟨?_, ?_, ?_⟩
  · intro y hy
    unfold seasonWeight
    rw [if_pos hy]
  · intro y hy
    unfold seasonWeight
    rw [if_neg (not_lt.2 hy)]
  · intro y1 y2 h
    unfold seasonWeight
    split_ifs with h1 h2 h3 <;> linarith

/-- C7 witness: the season weight at the concrete years 2010, 2020 and
around the cutoff. -/
theorem seasonWeight_spec_witness :
    seasonWeight 2010 = 1 ∧ seasonWeight 2020 = 2 ∧
    seasonWeight 2014 ≤ seasonWeight 2016 := by
  refine ⟨seasonWeight_spec.1 2010 (by norm_num), ?_,
    seasonWeight_spec.2.2 2014 2016 (by norm_num)⟩
  rw [seasonWeight_spec.2.1 2020 (by norm_num)]
  norm_num

/-- C8: swapping home and away exactly negates the edge, the model
predicts Draw for `(home, away)` iff it predicts Draw for `(away, home)`,
and when `|edge| > 0.2` a HomeWin for one ordering corresponds to an
AwayWin for the other. -/
theorem simulate_match_swap_spec
    (profiles : Team → Option TeamProfile) (home away : Team)
    (hp ap : TeamProfile)
    (hh : profiles home = some hp) (ha : profiles away = some ap) (u : ℚ) :
    edge ap hp = -(edge hp ap) ∧
    (simulate_match profiles home away u = .D ↔
      simulate_match profiles away home u = .D) ∧
    (1/5 < |edge hp ap| →
      (simulate_match profiles home away u = .H ↔
        simulate_match profiles away home u = .A)) := by
  have hneg : edge ap hp = -(edge hp ap) := by
    unfold edge
    ring
  obtain ⟨f1, f2, f3⟩ := outcome_threshold_cases (edge hp ap)
  obtain ⟨b1, b2, b3⟩ := outcome_threshold_cases (edge ap hp)
  rw [simulate_match_known hh ha, simulate_match_known ha hh]
  refine ⟨hneg, ?_, ?_⟩
  · rw [f3, b3, hneg]
    constructor <;> intro hd <;> constructor <;> linarith [hd.1, hd.2]
  · intro habs
    rw [f1, b2, hneg]
    constructor <;> intro <;> linarith

/-- C8 witness: concrete profiles with edge `1/2`. -/
theorem simulate_match_swap_spec_witness :
    ((fun t => if t = "A" then some ⟨1, 1/2, 0⟩ else
        if t = "B" then some ⟨1/2, 1/2, 0⟩ else none) "B"
      = some (⟨1/2, 1/2, 0⟩ : TeamProfile)) ∧
    edge (⟨1/2, 1/2, 0⟩ : TeamProfile) ⟨1, 1/2, 0⟩ =
      -(edge ⟨1, 1/2, 0⟩ ⟨1/2, 1/2, 0⟩) := by
  refine ⟨rfl, ?_⟩
  exact (simulate_match_swap_spec
    (fun t => if t = "A" then some ⟨1, 1/2, 0⟩ else
      if t = "B" then some ⟨1/2, 1/2, 0⟩ else none)
    "A" "B" ⟨1, 1/2, 0⟩ ⟨1/2, 1/2, 0⟩ rfl rfl 0).1

/-- C5: `simulate_head_to_head` fails with the unknown-team error whenever
either of the two named teams has no profile; no fallback result is
produced on this path. -/
theorem head_to_head_unknown_error
    (profiles : Team → Option TeamProfile) (team1 team2 : Team) (u : ℚ)
    (h : profiles team1 = none ∨ profiles team2 = none) :
    simulate_head_to_head profiles team1 team2 u =
      .error .unknownTeamError := by
  unfold simulate_head_to_head
  rcases h with h1 | h2
  · rw [h1]
  · rw [h2]
    rcases profiles team1 with _ | p1 <;> rfl

/-- C5 witness: an empty profile table at two concrete team names. -/
theorem head_to_head_unknown_error_witness :
    ((fun _ => none : Team → Option TeamProfile) "Leeds" = none ∨
      (fun _ => none : Team → Option TeamProfile) "Luton" = none) ∧
    simulate_head_to_head (fun _ => none) "Leeds" "Luton" 0 =
      .error .unknownTeamError :=
  ⟨Or.inl rfl,
    head_to_head_unknown_error (fun _ => none) "Leeds" "Luton" 0 (Or.inl rfl)⟩

/-- C2: with both teams known the head-to-head probabilities are
`probA = |strengthA| / (|strengthA| + |strengthB|)` and
`probB = |strengthB| / (|strengthA| + |strengthB|)` (denominator replaced
by `0.01` when zero), `probDraw = max (1 - (probA + probB)) 0.2` so the
pre-normalisation draw probability is at least `0.2`, and the three
returned probabilities sum to exactly `1` after renormalisation. -/
theorem head_to_head_probs_spec (p1 p2 : TeamProfile) :
    let s1 := p1.attackStrength - p2.defenseStrength
    let s2 := p2.attackStrength - p1.defenseStrength
    let total := if |s1| + |s2| = 0 then 1/100 else |s1| + |s2|
    let probA := |s1| / total
    let probB := |s2| / total
    let probDraw := max (1 - (probA + probB)) (1/5)
    (1/5 : ℚ) ≤ probDraw ∧
    headToHeadProbs p1 p2 =
      (probA / (probA + probB + probDraw),
        probDraw / (probA + probB + probDraw),
        probB / (probA + probB + probDraw)) ∧
    (headToHeadProbs p1 p2).1 + (headToHeadProbs p1 p2).2.1 +
      (headToHeadProbs p1 p2).2.2 = 1 := by
  intro s1 s2 total probA probB probDraw
  have htotal : 0 < total := by
    show 0 < if |s1| + |s2| = 0 then 1/100 else |s1| + |s2|
    split_ifs with h
    · norm_num
    · exact lt_of_le_of_ne (by positivity) (Ne.symm h)
  have hA : 0 ≤ probA := div_nonneg (abs_nonneg s1) htotal.le
  have hB : 0 ≤ probB := div_nonneg (abs_nonneg s2) htotal.le
  have hD : (1/5 : ℚ) ≤ probDraw := le_max_right _ _
  have htp : (0 : ℚ) < probA + probB + probDraw := by linarith
  refine ⟨hD, rfl, ?_⟩
  show probA / (probA + probB + probDraw) +
      probDraw / (probA + probB + probDraw) +
      probB / (probA + probB + probDraw) = 1
  rw [div_add_div_same, div_add_div_same, div_eq_one_iff_eq htp.ne']
  ring

/-- C10 (implicit): with both teams known, whenever at least one strength
differential is nonzero the pre-normalisation win probabilities sum to
exactly `1`, so the `0.2` draw floor binds and the renormalised draw
probability is exactly `0.2 / 1.2 = 1/6`; when both differentials are
zero the returned triple is exactly `(0, 1, 0)`. -/
theorem head_to_head_draw_floor_spec (p1 p2 : TeamProfile) :
    ((p1.attackStrength - p2.defenseStrength ≠ 0 ∨
        p2.attackStrength - p1.defenseStrength ≠ 0) →
      |p1.attackStrength - p2.defenseStrength| /
          (|p1.attackStrength - p2.defenseStrength| +
            |p2.attackStrength - p1.defenseStrength|) +
        |p2.attackStrength - p1.defenseStrength| /
          (|p1.attackStrength - p2.defenseStrength| +
            |p2.attackStrength - p1.defenseStrength|) = 1 ∧
      (headToHeadProbs p1 p2).2.1 = 1/6) ∧
    ((p1.attackStrength - p2.defenseStrength = 0 ∧
        p2.attackStrength - p1.defenseStrength = 0) →
      headToHeadProbs p1 p2 = (0, 1, 0)) := by
  constructor
  · intro h
    have hT : 0 < |p1.attackStrength - p2.defenseStrength| +
        |p2.attackStrength - p1.defenseStrength| := by
      rcases h with h1 | h1
      · have := abs_pos.2 h1
        have := abs_nonneg (p2.attackStrength - p1.defenseStrength)
        linarith
      · have := abs_pos.2 h1
        have := abs_nonneg (p1.attackStrength - p2.defenseStrength)
        linarith
    have hsum : |p1.attackStrength - p2.defenseStrength| /
          (|p1.attackStrength - p2.defenseStrength| +
            |p2.attackStrength - p1.defenseStrength|) +
        |p2.attackStrength - p1.defenseStrength| /
          (|p1.attackStrength - p2.defenseStrength| +
            |p2.attackStrength - p1.defenseStrength|) = 1 := by
      rw [div_add_div_same, div_self hT.ne']
    refine ⟨hsum, ?_⟩
    simp only [headToHeadProbs]
    rw [if_neg hT.ne']
    rw [hsum]
    norm_num
  · rintro ⟨hz1, hz2⟩
    simp only [headToHeadProbs]
    rw [hz1, hz2]
    norm_num

/-- C10 witness: a nonzero-differential pair giving draw probability
exactly `1/6`, and the all-zero degenerate pair giving `(0, 1, 0)`. -/
theorem head_to_head_draw_floor_spec_witness :
    ((1 : ℚ) - 0 ≠ 0 ∨ (0 : ℚ) - 0 ≠ 0) ∧
    (headToHeadProbs ⟨1, 0, 0⟩ ⟨0, 0, 0⟩).2.1 = 1/6 ∧
    headToHeadProbs ⟨0, 0, 0⟩ ⟨0, 0, 0⟩ = (0, 1, 0) := by
  refine ⟨Or.inl (by norm_num), ?_, ?_⟩
  · exact ((head_to_head_draw_floor_spec ⟨1, 0, 0⟩ ⟨0, 0, 0⟩).1
      (Or.inl (by norm_num))).2
  · exact (head_to_head_draw_floor_spec ⟨0, 0, 0⟩ ⟨0, 0, 0⟩).2
      ⟨by norm_num, by norm_num⟩

lemma choice3_preimages :
    ({u : ℚ | u ∈ Set.Ico (0:ℚ) 1 ∧ choice3 u = .H} = Set.Ico (0:ℚ) (1/3)) ∧
    ({u : ℚ | u ∈ Set.Ico (0:ℚ) 1 ∧ choice3 u = .D} = Set.Ico (1/3 : ℚ) (2/3)) ∧
    ({u : ℚ | u ∈ Set.Ico (0:ℚ) 1 ∧ choice3 u = .A} = Set.Ico (2/3 : ℚ) 1) := by
  refine ⟨?_, ?_, ?_⟩ <;> ext u <;>
    simp only [Set.mem_setOf_eq, Set.mem_Ico, choice3] <;>
    constructor
  · rintro ⟨⟨h0, hu1⟩, hc⟩
    split_ifs at hc with ha hb
    exact ⟨h0, ha⟩
  · rintro ⟨h0, hu⟩
    exact ⟨⟨h0, by linarith⟩, by rw [if_pos hu]⟩
  · rintro ⟨⟨h0, hu1⟩, hc⟩
    split_ifs at hc with ha hb
    exact ⟨not_lt.1 ha, hb⟩
  · rintro ⟨h13, h23⟩
    refine ⟨⟨by linarith, by linarith⟩, ?_⟩
    rw [if_neg (not_lt.2 h13), if_pos h23]
  · rintro ⟨⟨h0, hu1⟩, hc⟩
    split_ifs at hc with ha hb
    exact ⟨not_lt.1 hb, hu1⟩
  · rintro ⟨h23, hu1⟩
    refine ⟨⟨by linarith, hu1⟩, ?_⟩
    rw [if_neg (by linarith : ¬ u < 1/3), if_neg (not_lt.2 h23)]

/-- C9: when at least one team has no profile, `simulate_match` does not
fail: it reduces to the uniform fallback draw, whose preimages of the
three outcomes under a uniform sample on `[0, 1)` are the three
subintervals `[0, 1/3)`, `[1/3, 2/3)`, `[2/3, 1)` of length `1/3` each;
consequently a season trial built on it always yields a points tally for
every team (it never aborts because a team is unknown). -/
theorem unknown_fallback_uniform
    (profiles : Team → Option TeamProfile) (home away : Team)
    (h : profiles home = none ∨ profiles away = none) :
    (∀ u : ℚ, simulate_match profiles home away u = choice3 u) ∧
    ({u : ℚ | u ∈ Set.Ico (0:ℚ) 1 ∧ simulate_match profiles home away u = .H}
      = Set.Ico (0:ℚ) (1/3)) ∧
    ({u : ℚ | u ∈ Set.Ico (0:ℚ) 1 ∧ simulate_match profiles home away u = .D}
      = Set.Ico (1/3 : ℚ) (2/3)) ∧
    ({u : ℚ | u ∈ Set.Ico (0:ℚ) 1 ∧ simulate_match profiles home away u = .A}
      = Set.Ico (2/3 : ℚ) 1) ∧
    (∀ (us : Team → Team → ℚ) (teams : List Team) (t : Team),
      ∃ pts : ℕ,
        runSeasonTrial (fun h2 a2 => simulate_match profiles h2 a2 (us h2 a2))
          teams t = pts) := by
  have hfb : ∀ u : ℚ, simulate_match profiles home away u = choice3 u := by
    intro u
    unfold simulate_match
    rcases h with h1 | h1
    · rw [h1]
    · rw [h1]
      rcases profiles home with _ | p <;> rfl
  have hsets := choice3_preimages
  refine ⟨hfb, ?_, ?_, ?_, fun us teams t => ⟨_, rfl⟩⟩
  · rw [← hsets.1]
    ext u
    simp only [Set.mem_setOf_eq, hfb u]
  · rw [← hsets.2.1]
    ext u
    simp only [Set.mem_setOf_eq, hfb u]
  · rw [← hsets.2.2]
    ext u
    simp only [Set.mem_setOf_eq, hfb u]

/-- C9 witness: the empty profile table at two concrete teams. -/
theorem unknown_fallback_uniform_witness :
    ((fun _ => none : Team → Option TeamProfile) "Leeds" = none ∨
      (fun _ => none : Team → Option TeamProfile) "Luton" = none) ∧
    ({u : ℚ | u ∈ Set.Ico (0:ℚ) 1 ∧
        simulate_match (fun _ => none) "Leeds" "Luton" u = .H}
      = Set.Ico (0:ℚ) (1/3)) :=
  ⟨Or.inl rfl,
    (unknown_fallback_uniform (fun _ => none) "Leeds" "Luton" (Or.inl rfl)).2.1⟩

/-- C6: evaluating the aggregation at a record set missing the `Pld`
column.  The source raises an uncaught `KeyError("Pld")` inside the
group-by aggregation (the `x["Pld"]` lookup of line 31 runs before the
column guard of line 35 can fire), so no empty profile mapping is ever
returned, contrary to the claimed `DataError` with an empty mapping. -/
theorem buildProfiles_missing_column :
    buildProfiles recordsMissingPld = .error (.keyError "Pld") ∧
    buildProfiles recordsMissingPld ≠ .ok [] := by
  have h : buildProfiles recordsMissingPld = .error (.keyError "Pld") := by rfl
  refine ⟨h, ?_⟩
  rw [h]
  intro hc
  exact Except.noConfusion hc

lemma totalPoints_cons (a : Team) (l : List Team) (st : Team → ℕ) :
    totalPoints (a :: l) st = st a + totalPoints l st := by
  simp [totalPoints]

lemma totalPoints_congr (teams : List Team) (f g : Team → ℕ)
    (h : ∀ t ∈ teams, f t = g t) : totalPoints teams f = totalPoints teams g := by
  unfold totalPoints
  rw [List.map_congr_left h]

lemma totalPoints_zero (teams : List Team) :
    totalPoints teams (fun _ => 0) = 0 := by
  induction teams with
  | nil => rfl
  | cons a l ih => rw [totalPoints_cons, ih]

lemma totalPoints_add_single :
    ∀ (teams : List Team), teams.Nodup → ∀ (st : Team → ℕ) (x : Team),
      x ∈ teams → ∀ k : ℕ,
      totalPoints teams (fun t => if t = x then st t + k else st t) =
        totalPoints teams st + k := by
  intro teams
  induction teams with
  | nil =>
    intro _ st x hx
    cases hx
  | cons a l ih =>
    intro hnd st x hx k
    rw [totalPoints_cons, totalPoints_cons]
    rcases List.mem_cons.1 hx with heq | hx2
    · subst heq
      rw [if_pos rfl]
      have hnotin : x ∉ l := (List.nodup_cons.1 hnd).1
      rw [totalPoints_congr l (fun t => if t = x then st t + k else st t) st ?_]
      · omega
      · intro t ht
        show (if t = x then st t + k else st t) = st t
        rw [if_neg]
        intro hteq
        exact hnotin (hteq ▸ ht)
    · have hax : a ≠ x := fun haeq => (List.nodup_cons.1 hnd).1 (haeq ▸ hx2)
      rw [if_neg hax, ih (List.nodup_cons.1 hnd).2 st x hx2 k]
      omega

lemma applyResult_D_decomp (st : Team → ℕ) (h a : Team) (hne : h ≠ a) :
    applyResult st h a .D =
      (fun t =>
        if t = h then (fun s => if s = a then st s + 1 else st s) t + 1
        else (fun s => if s = a then st s + 1 else st s) t) := by
  funext t
  simp only [applyResult]
  by_cases th : t = h
  · subst th
    rw [if_pos (Or.inl rfl), if_pos rfl, if_neg hne]
  · by_cases ta : t = a
    · subst ta
      rw [if_pos (Or.inr rfl), if_neg th, if_pos rfl]
    · rw [if_neg (by tauto), if_neg th, if_neg ta]

lemma totalPoints_applyResult (teams : List Team) (hnd : teams.Nodup)
    (st : Team → ℕ) (h a : Team) (hh : h ∈ teams) (ha : a ∈ teams)
    (hne : h ≠ a) (o : Outcome) :
    totalPoints teams (applyResult st h a o) =
      totalPoints teams st + (if o = .D then 2 else 3) := by
  cases o
  · show totalPoints teams (fun t => if t = h then st t + 3 else st t) = _
    rw [totalPoints_add_single teams hnd st h hh 3,
      if_neg (by decide : ¬ (Outcome.H = Outcome.D))]
  · rw [applyResult_D_decomp st h a hne,
      totalPoints_add_single teams hnd (fun s => if s = a then st s + 1 else st s)
        h hh 1,
      totalPoints_add_single teams hnd st a ha 1, if_pos rfl]
  · show totalPoints teams (fun t => if t = a then st t + 3 else st t) = _
    rw [totalPoints_add_single teams hnd st a ha 3,
      if_neg (by decide : ¬ (Outcome.A = Outcome.D))]

lemma totalPoints_playAll :
    ∀ (pairs : List (Team × Team)) (teams : List Team), teams.Nodup →
      (∀ p ∈ pairs, p.1 ∈ teams ∧ p.2 ∈ teams ∧ p.1 ≠ p.2) →
      ∀ (res : Team → Team → Outcome) (st : Team → ℕ),
        totalPoints teams (playAll res pairs st) =
          totalPoints teams st + 3 * countDecisive res pairs +
            2 * countDraws res pairs := by
  intro pairs
  induction pairs with
  | nil =>
    intro teams _ _ res st
    simp [playAll, countDecisive, countDraws]
  | cons p rest ih =>
    intro teams hnd hmem res st
    have hp := hmem p (List.mem_cons_self p rest)
    have hrest : ∀ q ∈ rest, q.1 ∈ teams ∧ q.2 ∈ teams ∧ q.1 ≠ q.2 :=
      fun q hq => hmem q (List.mem_cons_of_mem p hq)
    show totalPoints teams
        (playAll res rest (applyResult st p.1 p.2 (res p.1 p.2))) = _
    rw [ih teams hnd hrest res _,
      totalPoints_applyResult teams hnd st p.1 p.2 hp.1 hp.2.1 hp.2.2]
    by_cases hD : res p.1 p.2 = .D
    · rw [if_pos hD]
      have h1 : countDraws res (p :: rest) = countDraws res rest + 1 := by
        simp [countDraws, List.filter_cons, hD]
      have h2 : countDecisive res (p :: rest) = countDecisive res rest := by
        simp [countDecisive, List.filter_cons, hD]
      rw [h1, h2]
      omega
    · rw [if_neg hD]
      have h1 : countDraws res (p :: rest) = countDraws res rest := by
        simp [countDraws, List.filter_cons, hD]
      have h2 : countDecisive res (p :: rest) = countDecisive res rest + 1 := by
        simp [countDecisive, List.filter_cons, hD]
      rw [h1, h2]
      omega

lemma mem_allPairs (teams : List Team) (h a : Team) :
    (h, a) ∈ allPairs teams ↔ h ∈ teams ∧ a ∈ teams ∧ h ≠ a := by
  unfold allPairs
  rw [List.mem_flatMap]
  constructor
  · rintro ⟨x, hx, hmem⟩
    rw [List.mem_map] at hmem
    obtain ⟨y, hy, heq⟩ := hmem
    cases heq
    rw [List.mem_filter] at hy
    exact ⟨hx, hy.1, Ne.symm (of_decide_eq_true hy.2)⟩
  · rintro ⟨hh, ha2, hne⟩
    exact ⟨h, hh, List.mem_map.2
      ⟨a, List.mem_filter.2 ⟨ha2, decide_eq_true (Ne.symm hne)⟩, rfl⟩⟩

lemma allPairs_nodup (teams : List Team) (hnd : teams.Nodup) :
    (allPairs teams).Nodup := by
  unfold allPairs
  rw [List.nodup_flatMap]
  constructor
  · intro x _
    apply List.Nodup.map
    · intro a b hab
      exact congrArg Prod.snd hab
    · exact hnd.filter _
  · apply List.Pairwise.imp ?_ hnd
    intro x y hxy
    intro p hpx hpy
    rw [List.mem_map] at hpx hpy
    obtain ⟨t1, _, rfl⟩ := hpx
    obtain ⟨t2, _, heq⟩ := hpy
    exact hxy (congrArg Prod.fst heq).symm

/-- C3: each trial starts from an all-zero tally, plays every ordered
pair of distinct teams exactly once (the schedule contains exactly the
qualifying pairs, with no repetition), awards points 3/1/0, and the
total points awarded equal `3 * decisive + 2 * drawn`. -/
theorem season_points_conservation (teams : List Team) (hnd : teams.Nodup)
    (res : Team → Team → Outcome) :
    (∀ h a : Team, (h, a) ∈ allPairs teams ↔ h ∈ teams ∧ a ∈ teams ∧ h ≠ a) ∧
    (allPairs teams).Nodup ∧
    (∀ (st : Team → ℕ) (h a : Team), h ≠ a →
      (applyResult st h a .H h = st h + 3 ∧ applyResult st h a .H a = st a) ∧
      (applyResult st h a .D h = st h + 1 ∧ applyResult st h a .D a = st a + 1) ∧
      (applyResult st h a .A a = st a + 3 ∧ applyResult st h a .A h = st h) ∧
      (∀ (o : Outcome) (t : Team), t ≠ h → t ≠ a →
        applyResult st h a o t = st t)) ∧
    totalPoints teams (runSeasonTrial res teams) =
      3 * countDecisive res (allPairs teams) +
        2 * countDraws res (allPairs teams) := by
  refine ⟨mem_allPairs teams, allPairs_nodup teams hnd, ?_, ?_⟩
  · intro st h a hne
    refine ⟨⟨?_, ?_⟩, ⟨?_, ?_⟩, ⟨?_, ?_⟩, ?_⟩
    · show (if h = h then st h + 3 else st h) = st h + 3
      rw [if_pos rfl]
    · show (if a = h then st a + 3 else st a) = st a
      rw [if_neg (Ne.symm hne)]
    · show (if h = h ∨ h = a then st h + 1 else st h) = st h + 1
      rw [if_pos (Or.inl rfl)]
    · show (if a = h ∨ a = a then st a + 1 else st a) = st a + 1
      rw [if_pos (Or.inr rfl)]
    · show (if a = a then st a + 3 else st a) = st a + 3
      rw [if_pos rfl]
    · show (if h = a then st h + 3 else st h) = st h
      rw [if_neg hne]
    · intro o t tht hta
      cases o
      · show (if t = h then st t + 3 else st t) = st t
        rw [if_neg tht]
      · show (if t = h ∨ t = a then st t + 1 else st t) = st t
        rw [if_neg (by tauto)]
      · show (if t = a then st t + 3 else st t) = st t
        rw [if_neg hta]
  · have hmem : ∀ p ∈ allPairs teams, p.1 ∈ teams ∧ p.2 ∈ teams ∧ p.1 ≠ p.2 := by
      intro p hp
      exact (mem_allPairs teams p.1 p.2).1 hp
    show totalPoints teams (playAll res (allPairs teams) (fun _ => 0)) = _
    rw [totalPoints_playAll (allPairs teams) teams hnd hmem res (fun _ => 0),
      totalPoints_zero]
    omega

/-- C3 witness: the two-team universe with every match drawn. -/
theorem season_points_conservation_witness :
    (["A", "B"] : List Team).Nodup ∧
    totalPoints ["A", "B"] (runSeasonTrial (fun _ _ => .D) ["A", "B"]) =
      3 * countDecisive (fun _ _ => .D) (allPairs ["A", "B"]) +
        2 * countDraws (fun _ _ => .D) (allPairs ["A", "B"]) :=
  ⟨by decide,
    (season_points_conservation ["A", "B"] (by decide) (fun _ _ => .D)).2.2.2⟩

lemma position_bounds (standings : Team → ℕ) (teams : List Team) (t : Team)
    (ht : t ∈ teams) :
    1 ≤ position standings teams t ∧ position standings teams t ≤ teams.length := by
  unfold position
  refine ⟨by omega, ?_⟩
  have hmem : t ∈ sortByPointsDesc standings teams := by
    unfold sortByPointsDesc
    rw [List.mem_insertionSort]
    exact ht
  have hlt := List.indexOf_lt_length.2 hmem
  have hlen : (sortByPointsDesc standings teams).length = teams.length :=
    List.length_insertionSort _ _
  omega

lemma list_sum_bounds (lo hi : ℚ) :
    ∀ l : List ℚ, (∀ x ∈ l, lo ≤ x ∧ x ≤ hi) →
      l.length * lo ≤ l.sum ∧ l.sum ≤ l.length * hi := by
  intro l
  induction l with
  | nil =>
    intro _
    simp
  | cons a l ih =>
    intro hb
    have ha := hb a (List.mem_cons_self a l)
    have hl := ih fun x hx => hb x (List.mem_cons_of_mem a hx)
    simp only [List.sum_cons, List.length_cons]
    push_cast
    constructor <;> linarith [hl.1, hl.2, ha.1, ha.2]

lemma avgPosition_bounds (res : ℕ → Team → Team → Outcome) (teams : List Team)
    (trials : ℕ) (htr : 1 ≤ trials) (t : Team) (htm : t ∈ teams) :
    1 ≤ avgPosition res teams trials t ∧
      avgPosition res teams trials t ≤ teams.length := by
  unfold avgPosition
  have hb : ∀ x ∈ (List.range trials).map fun k =>
      (position (runSeasonTrial (res k) teams) teams t : ℚ),
      (1 : ℚ) ≤ x ∧ x ≤ teams.length := by
    intro x hx
    rw [List.mem_map] at hx
    obtain ⟨k, -, rfl⟩ := hx
    have hpos := position_bounds (runSeasonTrial (res k) teams) teams t htm
    constructor
    · exact_mod_cast hpos.1
    · exact_mod_cast hpos.2
  have hs := list_sum_bounds 1 (teams.length) _ hb
  rw [List.length_map, List.length_range] at hs
  have htrq : (0 : ℚ) < trials := by
    have : (1 : ℚ) ≤ trials := by exact_mod_cast htr
    linarith
  constructor
  · rw [le_div_iff₀ htrq]
    linarith [hs.1]
  · rw [div_le_iff₀ htrq]
    linarith [hs.2]

/-- C4: the season simulator's average-position mapping has exactly one
entry per simulated team (its key list is a permutation of the team
list, and each team's entry carries that team's average position), every
average position lies in `[1, number of teams]`, and the mapping is
sorted ascending by average position. -/
theorem simulate_season_avg_spec (teams : List Team) (hnd : teams.Nodup)
    (res : ℕ → Team → Team → Outcome) (trials : ℕ) (htr : 1 ≤ trials) :
    ((simulateSeasonAvg res teams trials).map Prod.fst).Perm teams ∧
    ((simulateSeasonAvg res teams trials).map Prod.fst).Nodup ∧
    (∀ t ∈ teams,
      (t, avgPosition res teams trials t) ∈ simulateSeasonAvg res teams trials) ∧
    (∀ p ∈ simulateSeasonAvg res teams trials,
      p.2 = avgPosition res teams trials p.1 ∧
      1 ≤ p.2 ∧ p.2 ≤ teams.length) ∧
    (simulateSeasonAvg res teams trials).Sorted byAvg := by
  have hperm0 : (simulateSeasonAvg res teams trials).Perm
      (teams.map fun t => (t, avgPosition res teams trials t)) :=
    List.perm_insertionSort byAvg _
  have hkeys := hperm0.map Prod.fst
  have hmapmap : ((teams.map fun t =>
      (t, avgPosition res teams trials t)).map Prod.fst) = teams := by
    rw [List.map_map]
    exact List.map_id teams
  rw [hmapmap] at hkeys
  refine ⟨hkeys, hkeys.nodup_iff.2 hnd, ?_, ?_, List.sorted_insertionSort byAvg _⟩
  · intro t ht
    rw [hperm0.mem_iff, List.mem_map]
    exact ⟨t, ht, rfl⟩
  · intro p hp
    rw [hperm0.mem_iff, List.mem_map] at hp
    obtain ⟨t, ht, rfl⟩ := hp
    exact ⟨rfl, avgPosition_bounds res teams trials htr t ht⟩

/-- C4 witness: the two-team universe, one trial, every match drawn. -/
theorem simulate_season_avg_spec_witness :
    (["A", "B"] : List Team).Nodup ∧ 1 ≤ 1 ∧
    ((simulateSeasonAvg (fun _ _ _ => .D) ["A", "B"] 1).map Prod.fst).Perm
      ["A", "B"] :=
  ⟨by decide, le_refl 1,
    (simulate_season_avg_spec ["A", "B"] (by decide) (fun _ _ _ => .D) 1
      (le_refl 1)).1⟩

end PremierPrediction
